import Mathlib

set_option maxRecDepth 100000

/-
Verification of the raw-device file-carving pipeline of this repository.

The embedding below follows src/recovery/main.py (raw_recovery, lines 75-242)
and src/recovery/verifier.py (verify_files, lines 16-76).

Modelling conventions:
  * A device is a finite byte stream, `List Nat` (each entry a byte value).
  * `fileD.read(512)` is `readBlock`: it yields the next at-most-512-byte
    block; a read that raises mid-scan is modelled by `Env.readFailAt`
    (the index of the read call that raises).
  * The Qt signal emissions `progress_updated.emit(p)` are collected in
    order in the `pout` field; the per-file completion percentage that is
    interpolated into the `status_updated` message text is collected in
    `fpout`.
  * The cooperative cancellation flag `self._is_running` is modelled by
    `Env.cancelAt`: the flag reads `false` from that check onward.
  * A failure to open/write one candidate output file (which in the code
    raises and is caught by the function-level `except`) is modelled by
    `Env.writeFailFile`, the index of the candidate whose sink raises.
  * Python float arithmetic on the progress percentages
    (`int(x * 0.90)`, `int((p / t) * 100)`) is modelled as exact rational
    floor; for the integer ranges that occur here (percent values 0..100)
    `int(x * 0.90)` agrees with `x * 90 / 100`, and no claim proved below
    depends on the float rounding of the unbounded ratio `p / t`.
  * The two nested `while` loops carry a fuel argument so that every
    definition is executable and reduces in the kernel; the wrapper
    `raw_recovery` supplies fuel `data.length + 2`, which exceeds the
    number of loop iterations (each iteration performs at least one read
    and the loop stops at the first empty read).  All universally
    quantified theorems below hold for every fuel value.
-/

namespace Recovery

/-- One entry of `recovered_files` (main.py lines 216-221):
`{'path': ..., 'size': ..., 'type': ..., 'status': ...}`. -/
structure CarveRec where
  path : String
  size : Nat
  ftype : String
  status : String
deriving DecidableEq, Repr

/-- The scan environment: the device contents plus the fault/cancellation
behaviour of the surrounding system. `sizeKnown` models whether
`os.path.getsize(drive_path)` succeeds (main.py lines 101-107). -/
structure Env where
  data : List Nat
  sizeKnown : Bool
  readFailAt : Option Nat
  writeFailFile : Option Nat
  cancelAt : Option Nat
deriving Repr

/-- Mutable scan state threaded through the loops of raw_recovery. -/
structure ScanSt where
  rem : List Nat
  reads : Nat
  checks : Nat
  processed : Nat
  prev : Nat
deriving DecidableEq, Repr

/-- Result of the inner per-file recovery loop (main.py lines 164-211). -/
structure InnerOut where
  failed : Bool
  written : List Nat
  st : ScanSt
  estSize : Nat
  fileSectors : Nat
  pout : List Nat
  fpout : List Nat
deriving DecidableEq, Repr

/-- Result of the outer scanning loop (main.py lines 121-232). -/
structure OuterOut where
  failed : Bool
  recs : List CarveRec
  st : ScanSt
  pout : List Nat
  fpout : List Nat
deriving DecidableEq, Repr

/-- Result of raw_recovery as observed by the caller: the returned record
list, the ordered progress-bar emissions, the per-file percentages shown
in status messages, and whether the function-level `except` fired. -/
structure RawOut where
  records : List CarveRec
  pout : List Nat
  fpout : List Nat
  failed : Bool
deriving DecidableEq, Repr

/-- `size = 512` (main.py line 77). -/
def blockSize : Nat := 512

/-- JPEG start signatures, in catalog priority order (main.py lines 82-90). -/
def jpg_signatures : List (List Nat) :=
  [[0xff, 0xd8, 0xff, 0xe0, 0x00, 0x10, 0x4a, 0x46],
   [0xff, 0xd8, 0xff, 0xe1],
   [0xff, 0xd8, 0xff, 0xdb],
   [0xff, 0xd8, 0xff, 0xe0],
   [0xff, 0xd8, 0xff, 0xee],
   [0xff, 0xd8, 0xff, 0xc0],
   [0xff, 0xd8, 0xff, 0xc4]]

/-- PNG start signature (main.py line 91). -/
def png_signature : List Nat := [0x89, 0x50, 0x4e, 0x47, 0x0d, 0x0a, 0x1a, 0x0a]

/-- JPEG end marker FF D9 (main.py line 157). -/
def jpgEndSignature : List Nat := [0xff, 0xd9]

/-- PNG IEND-chunk pattern: chunk type plus CRC (main.py line 160). -/
def pngEndSignature : List Nat := [0x49, 0x45, 0x4e, 0x44, 0xae, 0x42, 0x60, 0x82]

/-- `hay.find(needle)` of Python bytes: index of the first full occurrence
of `needle` in `hay`, `none` when absent. -/
def findSub (needle : List Nat) : List Nat → Option Nat
  | [] => if needle.isPrefixOf ([] : List Nat) then some 0 else none
  | a :: t =>
    if needle.isPrefixOf (a :: t) then some 0
    else
      match findSub needle t with
      | some i => some (i + 1)
      | none => none

/-- The `for sig in jpg_signatures` loop (main.py lines 127-132): the first
signature in list order that occurs anywhere in the block wins, with its
position. -/
def findJpgSig (b : List Nat) : List (List Nat) → Option Nat
  | [] => none
  | s :: rest =>
    match findSub s b with
    | some p => some p
    | none => findJpgSig b rest

/-- Start-signature scan of one block (main.py lines 122-139): JPEG
signatures are tried before the PNG signature. -/
def scanStart (b : List Nat) : Option (String × Nat) :=
  match findJpgSig b jpg_signatures with
  | some p => some ("jpg", p)
  | none =>
    match findSub png_signature b with
    | some p => some ("png", p)
    | none => none

/-- End signature per file type (main.py lines 156-160). -/
def end_signature (ft : String) : List Nat :=
  if ft = "jpg" then jpgEndSignature else pngEndSignature

/-- Bytes retained from the end-marker position: `bfind+2` for JPEG,
`bfind+12` for PNG (main.py lines 200-207). -/
def endMarkerLen (ft : String) : Nat :=
  if ft = "jpg" then 2 else 12

/-- The adaptive file-size-estimate update (main.py lines 176-177):
`if file_sectors > estimated_file_size / 2: estimated_file_size = file_sectors * 2`.
For integer `file_sectors` the Nat floor division agrees with Python's
float comparison. -/
def updateEstimate (file_sectors est : Nat) : Nat :=
  if file_sectors > est / 2 then file_sectors * 2 else est

/-- `total_sectors` (main.py lines 100-107): drive size in 512-byte sectors,
with fallback 1000000 when the size is unavailable or yields zero sectors. -/
def total_sectors (env : Env) : Nat :=
  if env.sizeKnown then
    if env.data.length / blockSize > 0 then env.data.length / blockSize
    else 1000000
  else 1000000

/-- One `fileD.read(size)` call: `none` models a raising read. -/
def readBlock (env : Env) (rem : List Nat) (reads : Nat) :
    Option (List Nat × List Nat) :=
  if env.readFailAt = some reads then none
  else some (rem.take blockSize, rem.drop blockSize)

/-- One read of `self._is_running` (the `checks`-th). -/
def isRunning (env : Env) (checks : Nat) : Bool :=
  match env.cancelAt with
  | none => true
  | some n => decide (checks < n)

/-- `scan_progress = min(100, int((processed_sectors / total_sectors) * 100))`
(main.py line 172). -/
def scanProgress (env : Env) (processed : Nat) : Nat :=
  min 100 (processed * 100 / total_sectors env)

/-- `file_progress = min(100, int((file_sectors / estimated_file_size) * 100))`
(main.py line 179). -/
def fileProgressOf (file_sectors est : Nat) : Nat :=
  min 100 (file_sectors * 100 / est)

/-- The guarded emission of main.py lines 191-194: emit (bar value and
status percentage) only when the candidate value strictly exceeds the
previously emitted one. Returns the new `prev_progress` and the emitted
values. -/
def emitUpdate (prev current fp : Nat) : Nat × List Nat × List Nat :=
  if current > prev then (current, [current], [fp]) else (prev, [], [])

/-- The periodic progress update of the outer loop (main.py lines 228-232). -/
def periodicEmit (env : Env) (processed prev : Nat) : Nat × List Nat :=
  if processed % 1000 = 0 then
    let current := min 95 (processed * 90 / total_sectors env)
    if current > prev then (current, [current]) else (prev, [])
  else (prev, [])

/-- The inner per-file recovery loop `while drec and self._is_running`
(main.py lines 164-211).  Each iteration reads one block, updates the
progress state, and either stops (empty read, i.e. medium exhausted, or
end signature found, in which case `bfind + endMarkerLen` bytes of the
block are written) or writes the whole block and continues. -/
def recoverLoop (env : Env) (ft : String) : Nat → Nat → Nat → ScanSt → InnerOut
  | 0, est, fsec, st => ⟨false, [], st, est, fsec, [], []⟩
  | fuel + 1, est, fsec, st =>
    if isRunning env st.checks then
      match readBlock env st.rem st.reads with
      | none =>
        ⟨true, [], { st with checks := st.checks + 1, reads := st.reads + 1 },
          est, fsec, [], []⟩
      | some (byte, rem2) =>
        let processed := st.processed + 1
        let fsec2 := fsec + 1
        let est2 := updateEstimate fsec2 est
        let fp := fileProgressOf fsec2 est2
        let combined := scanProgress env processed * 90 / 100
        let current := min 95 (max st.prev combined)
        let e := emitUpdate st.prev current fp
        let st2 : ScanSt :=
          { rem := rem2, reads := st.reads + 1, checks := st.checks + 1,
            processed := processed, prev := e.1 }
        if byte = [] then
          ⟨false, [], st2, est2, fsec2, e.2.1, e.2.2⟩
        else
          match findSub (end_signature ft) byte with
          | some k =>
            ⟨false, byte.take (k + endMarkerLen ft), st2, est2, fsec2, e.2.1, e.2.2⟩
          | none =>
            let r := recoverLoop env ft fuel est2 fsec2 st2
            ⟨r.failed, byte ++ r.written, r.st, r.estSize, r.fileSectors,
              e.2.1 ++ r.pout, e.2.2 ++ r.fpout⟩
    else
      ⟨false, [], { st with checks := st.checks + 1 }, est, fsec, [], []⟩

/-- The outer scanning loop `while byte and self._is_running` (main.py
lines 121-232), parametrised by the per-file size-estimate seed (1000 in
the code, line 150).  When a start signature is found the inner loop runs,
a record with status 'Recovered' is appended, and scanning resumes at the
NEXT read block (line 223) - the tail of the block that held the end
marker is not re-scanned.  Any raising read or candidate-file write makes
the whole call fail (`failed = true`), mirroring the function-level
`except` (lines 238-240). -/
def scanLoop (env : Env) (seed : Nat) : Nat → List Nat → Nat → ScanSt → OuterOut
  | 0, _, _, st => ⟨false, [], st, [], []⟩
  | fuel + 1, byte, rcvd, st =>
    if byte = [] then
      ⟨false, [], st, [], []⟩
    else if isRunning env st.checks then
      let checks1 := st.checks + 1
      match scanStart byte with
      | some (ft, pos) =>
        if env.writeFailFile = some rcvd then
          ⟨true, [], { st with checks := checks1 }, [], []⟩
        else
          let content0 := byte.drop pos
          let r := recoverLoop env ft fuel seed 0 { st with checks := checks1 }
          if r.failed then
            ⟨true, [], r.st, r.pout, r.fpout⟩
          else
            let fileBytes := content0 ++ r.written
            let rec1 : CarveRec :=
              ⟨"recovered_" ++ toString rcvd ++ "." ++ ft,
                fileBytes.length, ft, "Recovered"⟩
            match readBlock env r.st.rem r.st.reads with
            | none =>
              ⟨true, [rec1], { r.st with reads := r.st.reads + 1 }, r.pout, r.fpout⟩
            | some (byte2, rem2) =>
              let processed2 := r.st.processed + 1
              let pe := periodicEmit env processed2 r.st.prev
              let st2 : ScanSt :=
                { rem := rem2, reads := r.st.reads + 1, checks := r.st.checks,
                  processed := processed2, prev := pe.1 }
              let t := scanLoop env seed fuel byte2 (rcvd + 1) st2
              ⟨t.failed, rec1 :: t.recs, t.st, r.pout ++ pe.2 ++ t.pout,
                r.fpout ++ t.fpout⟩
      | none =>
        match readBlock env st.rem st.reads with
        | none =>
          ⟨true, [], { st with checks := checks1, reads := st.reads + 1 }, [], []⟩
        | some (byte2, rem2) =>
          let processed2 := st.processed + 1
          let pe := periodicEmit env processed2 st.prev
          let st2 : ScanSt :=
            { rem := rem2, reads := st.reads + 1, checks := checks1,
              processed := processed2, prev := pe.1 }
          let t := scanLoop env seed fuel byte2 rcvd st2
          ⟨t.failed, t.recs, t.st, pe.2 ++ t.pout, t.fpout⟩
    else
      ⟨false, [], { st with checks := st.checks + 1 }, [], []⟩

/-- raw_recovery (main.py lines 75-242), with the file-size-estimate seed
as a parameter.  On success the accumulated records are returned and 98 is
emitted after the loop (line 235); on any exception the `except` branch
returns `[]` (line 240) - the records accumulated so far are discarded,
while the progress values already emitted as signals remain emitted. -/
def rawRecoverySeed (env : Env) (seed : Nat) : RawOut :=
  match readBlock env env.data 0 with
  | none => ⟨[], [], [], true⟩
  | some (byte0, rem0) =>
    let st0 : ScanSt := ⟨rem0, 1, 0, 0, 0⟩
    let r := scanLoop env seed (env.data.length + 2) byte0 0 st0
    if r.failed then ⟨[], r.pout, r.fpout, true⟩
    else ⟨r.recs, r.pout ++ [98], r.fpout, false⟩

/-- raw_recovery with the seed constant 1000 of main.py line 150. -/
def raw_recovery (env : Env) : RawOut := rawRecoverySeed env 1000

/-! ### Concrete inputs used to exercise the model -/

/-- `n` zero filler bytes. -/
def zeros (n : Nat) : List Nat := List.replicate n 0

/-- Two blocks; the only occurrence of a JPEG start signature (the 4-byte
SOI+APP1 variant) straddles the boundary: bytes FF D8 end block 0 and
bytes FF E1 begin block 1. -/
def envStraddle : Env :=
  ⟨zeros 510 ++ [0xff, 0xd8, 0xff, 0xe1] ++ zeros 510, true, none, none, none⟩

/-- The same four signature bytes contained inside a single block. -/
def envContained : Env :=
  ⟨zeros 508 ++ [0xff, 0xd8, 0xff, 0xe1] ++ zeros 512, true, none, none, none⟩

/-- Block 0 carries a JPEG start signature at offset 0; block 1 carries the
JPEG end marker at offset 0, immediately followed by a second, complete
JPEG start signature inside the same block. -/
def envTailSig : Env :=
  ⟨[0xff, 0xd8, 0xff, 0xe1] ++ zeros 508 ++
    [0xff, 0xd9, 0xff, 0xd8, 0xff, 0xe1] ++ zeros 506, true, none, none, none⟩

/-- A complete JPEG: start signature in block 0, end marker in the (short)
final block. -/
def dataOneJpg : List Nat :=
  [0xff, 0xd8, 0xff, 0xe1] ++ zeros 508 ++ [0xff, 0xd9]

/-- `dataOneJpg` with the third read call raising: the JPEG has already
been recovered when the read fails. -/
def envReadFail : Env := ⟨dataOneJpg, true, some 2, none, none⟩

/-- `dataOneJpg` with no fault injected. -/
def envReadOk : Env := ⟨dataOneJpg, true, none, none, none⟩

/-- A complete JPEG (start in block 0, end marker at the start of block 1)
followed by a second JPEG start signature in the short final block. -/
def dataTwoJpg : List Nat :=
  [0xff, 0xd8, 0xff, 0xe1] ++ zeros 508 ++ [0xff, 0xd9] ++ zeros 510 ++
  [0xff, 0xd8, 0xff, 0xe1]

/-- `dataTwoJpg` where opening the sink of candidate 1 (the second file)
raises. -/
def envWriteFail : Env := ⟨dataTwoJpg, true, none, some 1, none⟩

/-- `dataTwoJpg` with no fault injected. -/
def envWriteOk : Env := ⟨dataTwoJpg, true, none, none, none⟩

/-!
### The Integrity Verifier (src/recovery/verifier.py, verify_files)

File-system paths are modelled structurally: `FPath.base s` is an
ordinary path, and `FPath.quar n p` is the quarantine destination
`corrupted_dir/corrupted_{n}_{basename p}` built at verifier.py lines
56-57 (the name is determined by the per-run counter `n` and the moved
path `p`).  The file system is an association list from paths to byte
contents.  `VerEnv.valid` models `_verify_image_integrity` (a
deterministic function of the file bytes and the declared type: PIL
decode, dimension bounds, format agreement) and `VerEnv.hashFn` models
the SHA-256 digest of `_calculate_file_hash` (a function of the bytes).
`quarantineCreatable` models whether `os.makedirs(corrupted_dir)`
succeeds (its failure is the only exception reaching the function-level
`except`, which returns the input list, line 76); `quarantineWritable`
models whether `shutil.move` into the quarantine directory succeeds
(lines 59-66).
-/

/-- Structural file path. -/
inductive FPath where
  | base : String → FPath
  | quar : Nat → FPath → FPath
deriving DecidableEq, Repr

/-- One file-information record as seen by the verifier: the carve fields
plus the 'hash' key added at verifier.py line 46. -/
structure VerRec where
  path : FPath
  size : Nat
  ftype : String
  status : String
  hash : Option Nat
deriving DecidableEq, Repr

/-- Environment of one verify_files call. -/
structure VerEnv where
  files : List (FPath × List Nat)
  quarantineCreatable : Bool
  quarantineWritable : Bool
  valid : List Nat → String → Bool
  hashFn : List Nat → Nat

/-- `os.path.exists` / reading a file: first binding of the path. -/
def lookupF : List (FPath × List Nat) → FPath → Option (List Nat)
  | [], _ => none
  | e :: t, p => if e.1 = p then some e.2 else lookupF t p

/-- Remove every binding of a path. -/
def removeF : List (FPath × List Nat) → FPath → List (FPath × List Nat)
  | [], _ => []
  | e :: t, p => if e.1 = p then removeF t p else e :: removeF t p

/-- `shutil.move src dst` on the association list. -/
def moveF (files : List (FPath × List Nat)) (src dst : FPath) :
    List (FPath × List Nat) :=
  match lookupF files src with
  | none => files
  | some c => (dst, c) :: removeF files src

/-- The body of the `for file_info in file_list` loop (verifier.py lines
35-68) for one record: returns the updated record, the updated file
system, and the updated `corrupted_count`. -/
def verifyStep (env : VerEnv) (files : List (FPath × List Nat)) (c : Nat)
    (r : VerRec) : VerRec × List (FPath × List Nat) × Nat :=
  match lookupF files r.path with
  | none => ({ r with status := "Missing" }, files, c)
  | some content =>
    let r1 := { r with hash := some (env.hashFn content) }
    if env.valid content r.ftype then
      ({ r1 with status := "OK" }, files, c)
    else
      let c1 := c + 1
      let dst := FPath.quar c1 r.path
      if env.quarantineWritable then
        ({ r1 with path := dst, status := "Corrupted" }, moveF files r.path dst, c1)
      else
        ({ r1 with status := "Corrupted (not moved)" }, files, c1)

/-- The verification loop over the record list. -/
def verifyLoop (env : VerEnv) :
    List VerRec → List (FPath × List Nat) → Nat →
      List VerRec × List (FPath × List Nat) × Nat
  | [], files, c => ([], files, c)
  | r :: rest, files, c =>
    let s := verifyStep env files c r
    let t := verifyLoop env rest s.2.1 s.2.2
    (s.1 :: t.1, t.2.1, t.2.2)

/-- verify_files (verifier.py lines 16-76): resets `corrupted_count` to 0,
creates the quarantine directory (on failure the input list is returned
unchanged), then runs the loop.  Returns the verified records and the
environment with the file system updated by the quarantine moves. -/
def verify_files (env : VerEnv) (file_list : List VerRec) :
    List VerRec × VerEnv :=
  if env.quarantineCreatable then
    let t := verifyLoop env file_list env.files 0
    (t.1, { env with files := t.2.1 })
  else (file_list, env)

/-- The reference per-record outcome, phrased on the looked-up content
(used to state and prove properties of the loop). -/
def stepOut (env : VerEnv) (look : Option (List Nat)) (c : Nat) (r : VerRec) :
    VerRec × Nat :=
  match look with
  | none => ({ r with status := "Missing" }, c)
  | some content =>
    let r1 := { r with hash := some (env.hashFn content) }
    if env.valid content r.ftype then ({ r1 with status := "OK" }, c)
    else
      if env.quarantineWritable then
        ({ r1 with path := FPath.quar (c + 1) r.path, status := "Corrupted" }, c + 1)
      else
        ({ r1 with status := "Corrupted (not moved)" }, c + 1)

/-- Reference form of the loop in which every lookup is performed against
one fixed file system `fs0`. -/
def loopSpec (env : VerEnv) (fs0 : List (FPath × List Nat)) :
    List VerRec → Nat → List VerRec
  | [], _ => []
  | r :: rest, c =>
    let s := stepOut env (lookupF fs0 r.path) c r
    s.1 :: loopSpec env fs0 rest s.2

/-- The observable part of a record that claim C9 compares across passes. -/
def recStatusHash (r : VerRec) : String × Option Nat := (r.status, r.hash)

/-- Placeholder record for indexed access. -/
def dummyRec : VerRec := ⟨FPath.base "", 0, "", "", none⟩

/-! Concrete verifier inputs. -/

/-- A record whose path is, adversarially, exactly the quarantine name that
the first pass will create for `vrecB`. -/
def vrecA : VerRec := ⟨FPath.quar 1 (FPath.base "x"), 0, "jpg", "Recovered", none⟩

/-- A record pointing at an existing but invalid file. -/
def vrecB : VerRec := ⟨FPath.base "x", 1, "jpg", "Recovered", none⟩

/-- Verifier environment for the idempotence counterexample: one file on
disk, every image judged invalid, moves succeed. -/
def venvC : VerEnv :=
  ⟨[(FPath.base "x", [7])], true, true, fun _ _ => false, fun c => c.length⟩

/-- As `venvC` but with a quarantine directory that cannot be written:
every `shutil.move` raises. -/
def venvN : VerEnv :=
  ⟨[(FPath.base "x", [7])], true, false, fun _ _ => false, fun c => c.length⟩

/-- Invariant of a stretch of progress emissions starting from previously
emitted value `prev`: the values form a strictly increasing chain above
`prev`, the final `prev_progress` equals the last emission (or the old
`prev` when nothing was emitted), and every value is at most 95. -/
def EmitInv (prev : Nat) (out : List Nat) (prev2 : Nat) : Prop :=
  List.Chain (fun x y => x < y) prev out ∧
  prev2 = out.getLastD prev ∧ ∀ x ∈ out, x ≤ 95

/-- Along a record list processed with counter `c`, the final file system
`F1` still answers every record's (possibly quarantine-renamed) output
path with the content its own verification step saw in `fs`. -/
def LookStable (env : VerEnv) (F1 fs : List (FPath × List Nat)) :
    List VerRec → Nat → Prop
  | [], _ => True
  | r :: rest, c =>
    lookupF F1 (stepOut env (lookupF fs r.path) c r).1.path = lookupF fs r.path ∧
    LookStable env F1 fs rest (stepOut env (lookupF fs r.path) c r).2

/-- The record paths are pairwise distinct. -/
def DistinctPaths (l : List VerRec) : Prop :=
  l.Pairwise (fun a b => a.path ≠ b.path)

/-- No record path is a quarantine name generated from another (or the
same) record path. -/
def NoQuarOf (l : List VerRec) : Prop :=
  ∀ r ∈ l, ∀ r2 ∈ l, ∀ m : Nat, r2.path ≠ FPath.quar m r.path

/-- Every record path is an original (non-quarantine) path. -/
def AllBase (l : List VerRec) : Prop :=
  ∀ r ∈ l, ∃ s : String, r.path = FPath.base s

/-- A record is moved by its verification step against file system `fs`
exactly when its file exists, is judged invalid, and the quarantine
directory is writable. -/
def Moved (env : VerEnv) (fs : List (FPath × List Nat)) (r : VerRec) : Prop :=
  env.quarantineWritable = true ∧
  ∃ ct : List Nat, lookupF fs r.path = some ct ∧ env.valid ct r.ftype = false

/-! ## Theorems -/

theorem scanStart_nil : scanStart ([] : List Nat) = none := rfl

/-- If no 512-byte chunk of the unread data contains a start signature and
the current block contains none, the outer loop produces no record. -/
theorem scanLoop_no_sig (env : Env) (seed : Nat) :
    ∀ (fuel : Nat) (byte : List Nat) (rcvd : Nat) (st : ScanSt),
      scanStart byte = none →
      (∀ i : Nat, scanStart ((st.rem.drop (blockSize * i)).take blockSize) = none) →
      (scanLoop env seed fuel byte rcvd st).recs = [] := by
  intro fuel
  induction fuel with
  | zero => intro byte rcvd st _ _; rfl
  | succ fuel ih =>
    intro byte rcvd st h1 h2
    by_cases hf : env.readFailAt = some st.reads
    · simp only [scanLoop, h1, readBlock, hf, if_pos]
      split
      · rfl
      · split
        · rfl
        · rfl
    · simp only [scanLoop, h1, readBlock, if_neg hf]
      split
      · rfl
      · split
        · apply ih
          · simpa using h2 0
          · intro i
            have h3 := h2 (i + 1)
            simpa [List.drop_drop, Nat.mul_succ, Nat.add_comm] using h3
        · rfl

/-- Claim C1, counterexample: the stream `envStraddle` contains the JPEG
start signature FF D8 FF E1 (an entry of the catalog) at offset 510, i.e.
straddling the boundary between block 0 and block 1, yet raw recovery
detects nothing, while the identical four bytes contained inside a single
block (`envContained`) do produce a detection.  There is no rolling
carry-over buffer: blocks are scanned independently. -/
theorem raw_recovery_no_carry_cex :
    [0xff, 0xd8, 0xff, 0xe1] ∈ jpg_signatures ∧
    findSub [0xff, 0xd8, 0xff, 0xe1] envStraddle.data = some 510 ∧
    (raw_recovery envStraddle).records = [] ∧
    (raw_recovery envContained).records ≠ [] := by
  refine ⟨by decide, by decide, by decide, by decide⟩

/-- Claim C1, amended: each 512-byte block is scanned for start signatures
independently; if no single block of the stream contains a start
signature, no file is ever detected - a start signature whose bytes
straddle a block boundary is missed. -/
theorem raw_recovery_blockwise_detection (env : Env)
    (h : ∀ i < env.data.length / blockSize + 1,
        scanStart ((env.data.drop (blockSize * i)).take blockSize) = none) :
    (raw_recovery env).records = [] := by
  have hall : ∀ i : Nat,
      scanStart ((env.data.drop (blockSize * i)).take blockSize) = none := by
    intro i
    by_cases hi : i < env.data.length / blockSize + 1
    · exact h i hi
    · have hile : env.data.length / blockSize + 1 ≤ i := Nat.le_of_not_lt hi
      have h512 : blockSize = 512 := rfl
      have hdm := Nat.div_add_mod env.data.length 512
      have hmod : env.data.length % 512 < 512 :=
        Nat.mod_lt _ (by norm_num)
      have hlen : env.data.length ≤ blockSize * i := by
        rw [h512] at hile ⊢
        omega
      rw [List.drop_eq_nil_of_le hlen, List.take_nil, scanStart_nil]
  have hsig : scanStart (env.data.take blockSize) = none := by
    simpa using hall 0
  have hrem : ∀ i : Nat,
      scanStart (((env.data.drop blockSize).drop (blockSize * i)).take blockSize)
        = none := by
    intro i
    simpa [List.drop_drop, Nat.mul_succ, Nat.add_comm] using hall (i + 1)
  by_cases hf0 : env.readFailAt = some 0
  · simp [raw_recovery, rawRecoverySeed, readBlock, hf0]
  · have hmain := scanLoop_no_sig env 1000 (env.data.length + 2)
      (env.data.take blockSize) 0 ⟨env.data.drop blockSize, 1, 0, 0, 0⟩ hsig hrem
    simp only [raw_recovery, rawRecoverySeed, readBlock, if_neg hf0]
    split
    · rfl
    · exact hmain

/-- Witness for the amended C1 theorem at the straddling-signature input. -/
theorem raw_recovery_blockwise_detection_witness :
    (∀ i < envStraddle.data.length / blockSize + 1,
        scanStart ((envStraddle.data.drop (blockSize * i)).take blockSize) = none) ∧
    (raw_recovery envStraddle).records = [] :=
  ⟨by decide, raw_recovery_blockwise_detection envStraddle (by decide)⟩

/-- Helper: one step of the inner loop when the block read succeeds, the
block is nonempty and it contains the end signature at offset `k`: the
loop writes `byte[0, k + endMarkerLen)`, stops without failure, and leaves
the device stream at `rem2` - the tail of `byte` past the marker is not
pushed back for re-scanning. -/
theorem recoverLoop_end_step (env : Env) (ft : String) (fuel est fsec : Nat)
    (st : ScanSt) (byte rem2 : List Nat) (k : Nat)
    (hrun : isRunning env st.checks = true)
    (hread : readBlock env st.rem st.reads = some (byte, rem2))
    (hne : ¬ byte = [])
    (hfind : findSub (end_signature ft) byte = some k) :
    (recoverLoop env ft (fuel + 1) est fsec st).written
        = byte.take (k + endMarkerLen ft) ∧
    (recoverLoop env ft (fuel + 1) est fsec st).st.rem = rem2 ∧
    (recoverLoop env ft (fuel + 1) est fsec st).failed = false := by
  simp only [recoverLoop, hrun, hread, hfind, if_neg hne, if_true]
  exact ⟨by trivial, by trivial, by trivial⟩

/-- Claim C2, counterexample: in `envTailSig` the end marker sits at offset
0 of block 1 and a complete new JPEG start signature follows it at offset
2 of the same block; the engine writes the two marker bytes (record of
size 512 + 2 = 514, status Recovered), but the remainder of the block is
never re-scanned: only one record is produced, where re-scanning would
have found a second file. -/
theorem raw_recovery_tail_discard_cex :
    findSub (end_signature "jpg") ((envTailSig.data.drop blockSize).take blockSize)
        = some 0 ∧
    scanStart (((envTailSig.data.drop blockSize).take blockSize).drop 2)
        = some ("jpg", 0) ∧
    (raw_recovery envTailSig).records
        = [⟨"recovered_0.jpg", 514, "jpg", "Recovered"⟩] := by
  refine ⟨by decide, by decide, by decide⟩

/-- Claim C2, amended: when the end signature is found at offset `k` of the
current block, the engine writes bytes `[0, k + end_marker_length)` to the
sink, closes it (the record is then emitted with status Recovered, see the
C10 theorem), and DISCARDS the remainder of the block: scanning resumes at
the next block read from the device, without re-scanning the bytes after
the end marker. -/
theorem recoverLoop_end_found_discards_tail (env : Env) (ft : String)
    (fuel est fsec : Nat) (st : ScanSt) (byte rem2 : List Nat) (k : Nat)
    (hrun : isRunning env st.checks = true)
    (hread : readBlock env st.rem st.reads = some (byte, rem2))
    (hne : ¬ byte = [])
    (hfind : findSub (end_signature ft) byte = some k) :
    (recoverLoop env ft (fuel + 1) est fsec st).written
        = byte.take (k + endMarkerLen ft) ∧
    (recoverLoop env ft (fuel + 1) est fsec st).st.rem = rem2 ∧
    (recoverLoop env ft (fuel + 1) est fsec st).failed = false :=
  recoverLoop_end_step env ft fuel est fsec st byte rem2 k hrun hread hne hfind

/-- Witness for the amended C2 theorem: the inner loop applied to block 1
of `envTailSig`. -/
theorem recoverLoop_end_found_discards_tail_witness :
    isRunning envTailSig 1 = true ∧
    (recoverLoop envTailSig "jpg" 5 1000 0 ⟨envTailSig.data.drop blockSize, 1, 1, 0, 0⟩).written
      = ((envTailSig.data.drop blockSize).take blockSize).take (0 + endMarkerLen "jpg") :=
  ⟨by decide,
    (recoverLoop_end_found_discards_tail envTailSig "jpg" 4 1000 0
      ⟨envTailSig.data.drop blockSize, 1, 1, 0, 0⟩
      ((envTailSig.data.drop blockSize).take blockSize)
      ((envTailSig.data.drop blockSize).drop blockSize) 0
      (by decide) (by decide) (by decide) (by decide)).1⟩

/-- Claim C3, counterexample: in `envReadFail` one JPEG has been fully
recovered (as `envReadOk`, identical but for the fault, shows) before the
fourth read raises; the function-level except then returns the empty list,
so the accumulated record is NOT returned to the caller. -/
theorem raw_recovery_readfail_cex :
    (raw_recovery envReadFail).failed = true ∧
    (raw_recovery envReadFail).records = [] ∧
    (raw_recovery envReadOk).records
        = [⟨"recovered_0.jpg", 514, "jpg", "Recovered"⟩] := by
  refine ⟨by decide, by decide, by decide⟩

/-- Claim C3, amended: a block read failing mid-scan is fatal, and the
records accumulated up to that point are DISCARDED, not returned: whenever
the scan aborts on an exception, raw recovery returns the empty list. -/
theorem raw_recovery_failed_discards (env : Env)
    (h : (raw_recovery env).failed = true) :
    (raw_recovery env).records = [] := by
  revert h
  simp only [raw_recovery, rawRecoverySeed]
  split
  · intro _; rfl
  · split
    · intro _; rfl
    · intro h; cases h

/-- Witness for the amended C3 theorem at the mid-scan read failure. -/
theorem raw_recovery_failed_discards_witness :
    (raw_recovery envReadFail).failed = true ∧
    (raw_recovery envReadFail).records = [] :=
  ⟨by decide, raw_recovery_failed_discards envReadFail (by decide)⟩

/-- Claim C4, counterexample: in `envWriteFail` the first JPEG is recovered
and its record accumulated, then opening the sink of the second candidate
raises; the whole scan aborts and returns the empty list - the first
record is lost and the affected record is never emitted.  Without the
fault (`envWriteOk`) the same stream yields two records. -/
theorem raw_recovery_writefail_cex :
    (raw_recovery envWriteFail).failed = true ∧
    (raw_recovery envWriteFail).records = [] ∧
    ((raw_recovery envWriteOk).records.map CarveRec.status)
        = ["Recovered", "Recovered"] := by
  refine ⟨by decide, by decide, by decide⟩

/-- Claim C4, amended: a failure opening/writing one candidate's file is
FATAL for the scan: at the point where a start signature has been found
and the sink for candidate `rcvd` raises, the outer loop aborts with no
records at all (and the function-level except then returns the empty
list, as the C4 counterexample shows end to end). -/
theorem scanLoop_writefail_aborts (env : Env) (seed fuel : Nat)
    (byte : List Nat) (rcvd : Nat) (st : ScanSt) (ft : String) (pos : Nat)
    (hne : ¬ byte = [])
    (hrun : isRunning env st.checks = true)
    (hsig : scanStart byte = some (ft, pos))
    (hwf : env.writeFailFile = some rcvd) :
    (scanLoop env seed (fuel + 1) byte rcvd st).failed = true ∧
    (scanLoop env seed (fuel + 1) byte rcvd st).recs = [] := by
  simp only [scanLoop, if_neg hne, hrun, hsig, hwf, if_true]
  exact ⟨by trivial, by trivial⟩

/-- Witness for the amended C4 theorem: block 2 of `envWriteFail`, where
the second candidate's sink raises. -/
theorem scanLoop_writefail_aborts_witness :
    scanStart ((envWriteFail.data.drop (2 * blockSize)).take blockSize)
        = some ("jpg", 0) ∧
    (scanLoop envWriteFail 1000 6 ((envWriteFail.data.drop (2 * blockSize)).take blockSize)
        1 ⟨[], 3, 2, 2, 0⟩).recs = [] :=
  ⟨by decide,
    (scanLoop_writefail_aborts envWriteFail 1000 5
      ((envWriteFail.data.drop (2 * blockSize)).take blockSize) 1
      ⟨[], 3, 2, 2, 0⟩ "jpg" 0
      (by decide) (by decide) (by decide) (by decide)).2⟩

/-- Claim C6: when the end signature is found at offset `k`, the number of
bytes retained from `k` is fixed per type - 2 for a JPEG (the FF D9
marker) and 12 for a PNG (IEND-related fixed offset) - and the retained
span is `byte.take (k + endMarkerLen ft)`, a function of `k` and the type
alone, with no inspection of the chunk's length field. -/
theorem recoverLoop_end_marker_retention (env : Env) (ft : String)
    (fuel est fsec : Nat) (st : ScanSt) (byte rem2 : List Nat) (k : Nat)
    (hrun : isRunning env st.checks = true)
    (hread : readBlock env st.rem st.reads = some (byte, rem2))
    (hne : ¬ byte = [])
    (hfind : findSub (end_signature ft) byte = some k) :
    (recoverLoop env ft (fuel + 1) est fsec st).written
        = byte.take (k + endMarkerLen ft) ∧
    endMarkerLen "jpg" = 2 ∧ endMarkerLen "png" = 12 ∧
    end_signature "jpg" = [0xff, 0xd9] ∧
    end_signature "png" = [0x49, 0x45, 0x4e, 0x44, 0xae, 0x42, 0x60, 0x82] :=
  ⟨(recoverLoop_end_step env ft fuel est fsec st byte rem2 k hrun hread hne hfind).1,
    rfl, rfl, rfl, rfl⟩

/-- Witness for the C6 theorem: a PNG block whose IEND pattern sits at
offset 3; exactly 12 bytes past the match position are retained. -/
theorem recoverLoop_end_marker_retention_witness :
    findSub (end_signature "png")
        ([0, 0, 0, 0x49, 0x45, 0x4e, 0x44, 0xae, 0x42, 0x60, 0x82, 1, 2, 3, 4, 5, 6])
        = some 3 ∧
    (recoverLoop (Env.mk ([0, 0, 0, 0x49, 0x45, 0x4e, 0x44, 0xae, 0x42, 0x60, 0x82, 1, 2, 3, 4, 5, 6]) true none none none)
        "png" 3 1000 0 ⟨[0, 0, 0, 0x49, 0x45, 0x4e, 0x44, 0xae, 0x42, 0x60, 0x82, 1, 2, 3, 4, 5, 6], 0, 0, 0, 0⟩).written
      = [0, 0, 0, 0x49, 0x45, 0x4e, 0x44, 0xae, 0x42, 0x60, 0x82, 1, 2, 3, 4] :=
  ⟨by decide, by
    have h := (recoverLoop_end_marker_retention
      (Env.mk ([0, 0, 0, 0x49, 0x45, 0x4e, 0x44, 0xae, 0x42, 0x60, 0x82, 1, 2, 3, 4, 5, 6]) true none none none)
      "png" 2 1000 0 ⟨[0, 0, 0, 0x49, 0x45, 0x4e, 0x44, 0xae, 0x42, 0x60, 0x82, 1, 2, 3, 4, 5, 6], 0, 0, 0, 0⟩
      [0, 0, 0, 0x49, 0x45, 0x4e, 0x44, 0xae, 0x42, 0x60, 0x82, 1, 2, 3, 4, 5, 6] [] 3
      (by decide) (by decide) (by decide) (by decide)).1
    rw [h]
    decide⟩

theorem emitUpdate_fst (p c f : Nat) :
    (emitUpdate p c f).1 = if c > p then c else p := by
  unfold emitUpdate; split <;> rfl

theorem emitUpdate_pout (p c f : Nat) :
    (emitUpdate p c f).2.1 = if c > p then [c] else [] := by
  unfold emitUpdate; split <;> rfl

/-- The observable behaviour of the inner loop, apart from the per-file
percentage texts `fpout` and the final estimate state, does not depend on
the file-size estimate: the estimate feeds only the status-message
percentage. -/
theorem recoverLoop_est_irrel (env : Env) (ft : String) :
    ∀ (fuel est1 est2 fsec : Nat) (st : ScanSt),
      ((recoverLoop env ft fuel est1 fsec st).failed,
        (recoverLoop env ft fuel est1 fsec st).written,
        (recoverLoop env ft fuel est1 fsec st).st,
        (recoverLoop env ft fuel est1 fsec st).pout)
      = ((recoverLoop env ft fuel est2 fsec st).failed,
          (recoverLoop env ft fuel est2 fsec st).written,
          (recoverLoop env ft fuel est2 fsec st).st,
          (recoverLoop env ft fuel est2 fsec st).pout) := by
  intro fuel
  induction fuel with
  | zero => intro est1 est2 fsec st; rfl
  | succ fuel ih =>
    intro est1 est2 fsec st
    by_cases hrun : isRunning env st.checks = true
    · by_cases hrf : env.readFailAt = some st.reads
      · simp [recoverLoop, hrun, readBlock, hrf]
      · by_cases hbe : st.rem.take blockSize = []
        · simp [recoverLoop, hrun, readBlock, hrf, hbe, emitUpdate_fst, emitUpdate_pout]
        · cases hfind : findSub (end_signature ft) (st.rem.take blockSize) with
          | some k =>
            simp [recoverLoop, hrun, readBlock, hrf, hbe, hfind,
              emitUpdate_fst, emitUpdate_pout]
          | none =>
            have h := ih (updateEstimate (fsec + 1) est1) (updateEstimate (fsec + 1) est2)
              (fsec + 1)
              { rem := st.rem.drop blockSize, reads := st.reads + 1,
                checks := st.checks + 1, processed := st.processed + 1,
                prev := if min 95 (max st.prev
                    (scanProgress env (st.processed + 1) * 90 / 100)) > st.prev
                  then min 95 (max st.prev
                    (scanProgress env (st.processed + 1) * 90 / 100))
                  else st.prev }
            simp only [Prod.mk.injEq] at h
            obtain ⟨h1, h2, h3, h4⟩ := h
            simp only [recoverLoop, hrun, readBlock, hrf, hbe, hfind,
              emitUpdate_fst, emitUpdate_pout, if_true, if_false, ite_true, ite_false,
              Prod.mk.injEq]
            exact ⟨h1, by rw [h2], h3, by rw [h4]⟩
    · have hrun2 : isRunning env st.checks = false := by
        cases h : isRunning env st.checks
        · rfl
        · exact absurd h hrun
      simp [recoverLoop, hrun2]

/-- The records, progress-bar emissions, failure flag and final scan state
of the outer loop do not depend on the file-size-estimate seed. -/
theorem scanLoop_seed_irrel (env : Env) :
    ∀ (fuel : Nat) (byte : List Nat) (rcvd : Nat) (st : ScanSt) (s1 s2 : Nat),
      ((scanLoop env s1 fuel byte rcvd st).failed,
        (scanLoop env s1 fuel byte rcvd st).recs,
        (scanLoop env s1 fuel byte rcvd st).st,
        (scanLoop env s1 fuel byte rcvd st).pout)
      = ((scanLoop env s2 fuel byte rcvd st).failed,
          (scanLoop env s2 fuel byte rcvd st).recs,
          (scanLoop env s2 fuel byte rcvd st).st,
          (scanLoop env s2 fuel byte rcvd st).pout) := by
  intro fuel
  induction fuel with
  | zero => intro byte rcvd st s1 s2; rfl
  | succ fuel ih =>
    intro byte rcvd st s1 s2
    by_cases hbe : byte = []
    · simp [scanLoop, hbe]
    · by_cases hrun : isRunning env st.checks = true
      · cases hsig : scanStart byte with
        | none =>
          by_cases hrf : env.readFailAt = some st.reads
          · simp [scanLoop, hbe, hrun, hsig, readBlock, hrf]
          · have h := ih (st.rem.take blockSize) rcvd
              { rem := st.rem.drop blockSize, reads := st.reads + 1,
                checks := st.checks + 1, processed := st.processed + 1,
                prev := (periodicEmit env (st.processed + 1) st.prev).1 } s1 s2
            simp only [Prod.mk.injEq] at h
            obtain ⟨h1, h2, h3, h4⟩ := h
            simp [scanLoop, hbe, hrun, hsig, readBlock, hrf, h1, h2, h3, h4]
        | some ftpos =>
          obtain ⟨ft, pos⟩ := ftpos
          by_cases hwf : env.writeFailFile = some rcvd
          · simp [scanLoop, hbe, hrun, hsig, hwf]
          · have hr := recoverLoop_est_irrel env ft fuel s1 s2 0
              { st with checks := st.checks + 1 }
            simp only [Prod.mk.injEq] at hr
            obtain ⟨hrf1, hrw, hrst, hrp⟩ := hr
            by_cases hfail : (recoverLoop env ft fuel s2 0
                { st with checks := st.checks + 1 }).failed = true
            · simp [scanLoop, hbe, hrun, hsig, hwf, hrf1, hrw, hrst, hrp, hfail]
            · have hfail2 : (recoverLoop env ft fuel s2 0
                  { st with checks := st.checks + 1 }).failed = false := by
                cases h : (recoverLoop env ft fuel s2 0
                    { st with checks := st.checks + 1 }).failed
                · rfl
                · exact absurd h hfail
              by_cases hrf2 : env.readFailAt = some (recoverLoop env ft fuel s2 0
                  { st with checks := st.checks + 1 }).st.reads
              · simp [scanLoop, hbe, hrun, hsig, hwf, hrf1, hrw, hrst, hrp, hfail2,
                  readBlock, hrf2]
              · have h := ih ((recoverLoop env ft fuel s2 0
                    { st with checks := st.checks + 1 }).st.rem.take blockSize)
                  (rcvd + 1)
                  { rem := (recoverLoop env ft fuel s2 0
                      { st with checks := st.checks + 1 }).st.rem.drop blockSize,
                    reads := (recoverLoop env ft fuel s2 0
                      { st with checks := st.checks + 1 }).st.reads + 1,
                    checks := (recoverLoop env ft fuel s2 0
                      { st with checks := st.checks + 1 }).st.checks,
                    processed := (recoverLoop env ft fuel s2 0
                      { st with checks := st.checks + 1 }).st.processed + 1,
                    prev := (periodicEmit env ((recoverLoop env ft fuel s2 0
                      { st with checks := st.checks + 1 }).st.processed + 1)
                      (recoverLoop env ft fuel s2 0
                        { st with checks := st.checks + 1 }).st.prev).1 } s1 s2
                simp only [Prod.mk.injEq] at h
                obtain ⟨h1, h2, h3, h4⟩ := h
                simp [scanLoop, hbe, hrun, hsig, hwf, hrf1, hrw, hrst, hrp, hfail2,
                  readBlock, hrf2, h1, h2, h3, h4]
      · have hrun2 : isRunning env st.checks = false := by
          cases h : isRunning env st.checks
          · rfl
          · exact absurd h hrun
        simp [scanLoop, hbe, hrun2]

/-- Claim C7, counterexample: with the seed 1000 and 501 sectors written
(just past half the estimate) the update triggers, but the new estimate is
1002 = 501 * 2, not the doubled 2000: the code sets the estimate to twice
the amount written, not to twice the old estimate. -/
theorem updateEstimate_not_double_cex :
    501 > 1000 / 2 ∧
    updateEstimate 501 1000 = 1002 ∧
    ¬ updateEstimate 501 1000 = 2 * 1000 := by
  refine ⟨by decide, by decide, by decide⟩

/-- Claim C7, amended: the per-file size estimate starts at the fixed seed
1000; whenever the sectors written for the current file exceed half the
current estimate, the estimate is set to TWICE THE SECTORS WRITTEN (not
doubled); and the per-file completion percentage derived from it feeds
only the status message: the progress-bar emissions and the returned
records are identical for any two seeds. -/
theorem updateEstimate_twice_written :
    (∀ fsec est : Nat, fsec > est / 2 → updateEstimate fsec est = fsec * 2) ∧
    (∀ (env : Env) (s1 s2 : Nat),
      (rawRecoverySeed env s1).pout = (rawRecoverySeed env s2).pout ∧
      (rawRecoverySeed env s1).records = (rawRecoverySeed env s2).records) := by
  constructor
  · intro fsec est h
    simp [updateEstimate, h]
  · intro env s1 s2
    have h := scanLoop_seed_irrel env (env.data.length + 2)
      (env.data.take blockSize) 0 ⟨env.data.drop blockSize, 1, 0, 0, 0⟩ s1 s2
    simp only [Prod.mk.injEq] at h
    obtain ⟨h1, h2, h3, h4⟩ := h
    by_cases hrf : env.readFailAt = some 0
    · simp [rawRecoverySeed, readBlock, hrf]
    · by_cases hfail : (scanLoop env s2 (env.data.length + 2)
          (env.data.take blockSize) 0 ⟨env.data.drop blockSize, 1, 0, 0, 0⟩).failed = true
      · simp [rawRecoverySeed, readBlock, hrf, h1, h2, h4, hfail]
      · have hfail2 : (scanLoop env s2 (env.data.length + 2)
            (env.data.take blockSize) 0 ⟨env.data.drop blockSize, 1, 0, 0, 0⟩).failed = false := by
          cases h : (scanLoop env s2 (env.data.length + 2)
              (env.data.take blockSize) 0 ⟨env.data.drop blockSize, 1, 0, 0, 0⟩).failed
          · rfl
          · exact absurd h hfail
        simp [rawRecoverySeed, readBlock, hrf, h1, h2, h4, hfail2]

/-- Witness for the amended C7 theorem. -/
theorem updateEstimate_twice_written_witness :
    updateEstimate 501 1000 = 501 * 2 ∧
    (rawRecoverySeed envTailSig 1000).pout = (rawRecoverySeed envTailSig 5).pout :=
  ⟨updateEstimate_twice_written.1 501 1000 (by decide),
    (updateEstimate_twice_written.2 envTailSig 1000 5).1⟩

theorem getLastD_append (l1 l2 : List Nat) (a : Nat) :
    (l1 ++ l2).getLastD a = l2.getLastD (l1.getLastD a) := by
  induction l1 generalizing a with
  | nil => rfl
  | cons b t ih => simp only [List.cons_append, List.getLastD_cons, ih]

theorem chainLt_append {l1 l2 : List Nat} {a : Nat}
    (h1 : List.Chain (fun x y => x < y) a l1)
    (h2 : List.Chain (fun x y => x < y) (l1.getLastD a) l2) :
    List.Chain (fun x y => x < y) a (l1 ++ l2) := by
  induction l1 generalizing a with
  | nil => exact h2
  | cons b t ih =>
    rw [List.chain_cons] at h1
    rw [List.getLastD_cons] at h2
    exact List.chain_cons.mpr ⟨h1.1, ih h1.2 h2⟩

theorem chainLt_chain' {a : Nat} {l : List Nat}
    (h : List.Chain (fun x y => x < y) a l) :
    List.Chain' (fun x y => x < y) l := by
  cases l with
  | nil => simp
  | cons b t => exact (List.chain_cons.mp h).2

theorem EmitInv_refl (p : Nat) : EmitInv p [] p :=
  ⟨List.Chain.nil, rfl, by simp⟩

theorem EmitInv_append {a b c : Nat} {o1 o2 : List Nat}
    (h1 : EmitInv a o1 b) (h2 : EmitInv b o2 c) :
    EmitInv a (o1 ++ o2) c := by
  obtain ⟨hc1, hl1, hb1⟩ := h1
  obtain ⟨hc2, hl2, hb2⟩ := h2
  subst hl1
  refine ⟨chainLt_append hc1 hc2, ?_, ?_⟩
  · rw [getLastD_append]; exact hl2
  · intro x hx
    rcases List.mem_append.mp hx with h | h
    · exact hb1 x h
    · exact hb2 x h

theorem emitUpdate_inv (p c f : Nat) (hc : c ≤ 95) :
    EmitInv p (emitUpdate p c f).2.1 (emitUpdate p c f).1 := by
  unfold emitUpdate
  split
  · next hgt =>
    exact ⟨List.chain_cons.mpr ⟨hgt, List.Chain.nil⟩, rfl, by simpa using hc⟩
  · exact EmitInv_refl p

theorem periodicEmit_inv (env : Env) (p prev : Nat) :
    EmitInv prev (periodicEmit env p prev).2 (periodicEmit env p prev).1 := by
  simp only [periodicEmit]
  split
  · split
    · next hgt =>
      refine ⟨List.chain_cons.mpr ⟨hgt, List.Chain.nil⟩, rfl, ?_⟩
      intro x hx
      rw [List.mem_singleton] at hx
      subst hx
      exact Nat.min_le_left 95 (p * 90 / total_sectors env)
    · exact EmitInv_refl prev
  · exact EmitInv_refl prev

/-- Progress invariant of the inner per-file loop. -/
theorem recoverLoop_inv (env : Env) (ft : String) :
    ∀ (fuel est fsec : Nat) (st : ScanSt),
      EmitInv st.prev (recoverLoop env ft fuel est fsec st).pout
        (recoverLoop env ft fuel est fsec st).st.prev := by
  intro fuel
  induction fuel with
  | zero => intro est fsec st; exact EmitInv_refl st.prev
  | succ fuel ih =>
    intro est fsec st
    by_cases hrun : isRunning env st.checks = true
    · by_cases hrf : env.readFailAt = some st.reads
      · simp only [recoverLoop, hrun, readBlock, hrf, if_true, ite_true]
        exact EmitInv_refl st.prev
      · by_cases hbe : st.rem.take blockSize = []
        · simp only [recoverLoop, hrun, readBlock, hrf, hbe, if_true, ite_true,
            if_false, ite_false]
          exact emitUpdate_inv _ _ _ (Nat.min_le_left _ _)
        · cases hfind : findSub (end_signature ft) (st.rem.take blockSize) with
          | some k =>
            simp only [recoverLoop, hrun, readBlock, hrf, hbe, hfind, if_true,
              ite_true, if_false, ite_false]
            exact emitUpdate_inv _ _ _ (Nat.min_le_left _ _)
          | none =>
            simp only [recoverLoop, hrun, readBlock, hrf, hbe, hfind, if_true,
              ite_true, if_false, ite_false]
            exact EmitInv_append (emitUpdate_inv _ _ _ (Nat.min_le_left _ _))
              (ih (updateEstimate (fsec + 1) est) (fsec + 1)
                { rem := st.rem.drop blockSize, reads := st.reads + 1,
                  checks := st.checks + 1, processed := st.processed + 1,
                  prev := (emitUpdate st.prev
                      (min 95 (max st.prev
                        (scanProgress env (st.processed + 1) * 90 / 100)))
                      (fileProgressOf (fsec + 1)
                        (updateEstimate (fsec + 1) est))).1 })
    · have hrun2 : isRunning env st.checks = false := by
        cases h : isRunning env st.checks
        · rfl
        · exact absurd h hrun
      simp only [recoverLoop, hrun2, Bool.false_eq_true, if_false, ite_false]
      exact EmitInv_refl st.prev

/-- Progress invariant of the outer scanning loop. -/
theorem scanLoop_inv (env : Env) (seed : Nat) :
    ∀ (fuel : Nat) (byte : List Nat) (rcvd : Nat) (st : ScanSt),
      EmitInv st.prev (scanLoop env seed fuel byte rcvd st).pout
        (scanLoop env seed fuel byte rcvd st).st.prev := by
  intro fuel
  induction fuel with
  | zero => intro byte rcvd st; exact EmitInv_refl st.prev
  | succ fuel ih =>
    intro byte rcvd st
    by_cases hbe : byte = []
    · simp only [scanLoop, hbe, if_true, ite_true]
      exact EmitInv_refl st.prev
    · by_cases hrun : isRunning env st.checks = true
      · cases hsig : scanStart byte with
        | none =>
          by_cases hrf : env.readFailAt = some st.reads
          · simp only [scanLoop, hbe, hrun, hsig, readBlock, hrf, if_true, ite_true,
              if_false, ite_false]
            exact EmitInv_refl st.prev
          · simp only [scanLoop, hbe, hrun, hsig, readBlock, hrf, if_true, ite_true,
              if_false, ite_false]
            exact EmitInv_append (periodicEmit_inv env _ _)
              (ih (st.rem.take blockSize) rcvd
                { rem := st.rem.drop blockSize, reads := st.reads + 1,
                  checks := st.checks + 1, processed := st.processed + 1,
                  prev := (periodicEmit env (st.processed + 1) st.prev).1 })
        | some ftpos =>
          obtain ⟨ft, pos⟩ := ftpos
          by_cases hwf : env.writeFailFile = some rcvd
          · simp only [scanLoop, hbe, hrun, hsig, hwf, if_true, ite_true, if_false,
              ite_false]
            exact EmitInv_refl st.prev
          · have hinner := recoverLoop_inv env ft fuel seed 0
              { st with checks := st.checks + 1 }
            by_cases hfail : (recoverLoop env ft fuel seed 0
                { st with checks := st.checks + 1 }).failed = true
            · simp only [scanLoop, hbe, hrun, hsig, hwf, hfail, if_true, ite_true,
                if_false, ite_false]
              exact hinner
            · have hfail2 : (recoverLoop env ft fuel seed 0
                  { st with checks := st.checks + 1 }).failed = false := by
                cases h : (recoverLoop env ft fuel seed 0
                    { st with checks := st.checks + 1 }).failed
                · rfl
                · exact absurd h hfail
              by_cases hrf2 : env.readFailAt = some (recoverLoop env ft fuel seed 0
                  { st with checks := st.checks + 1 }).st.reads
              · simp only [scanLoop, hbe, hrun, hsig, hwf, hfail2, readBlock, hrf2,
                  if_true, ite_true, if_false, ite_false, Bool.false_eq_true]
                exact hinner
              · simp only [scanLoop, hbe, hrun, hsig, hwf, hfail2, readBlock, hrf2,
                  if_true, ite_true, if_false, ite_false, Bool.false_eq_true]
                exact EmitInv_append
                  (EmitInv_append hinner (periodicEmit_inv env _ _))
                  (ih ((recoverLoop env ft fuel seed 0
                        { st with checks := st.checks + 1 }).st.rem.take blockSize)
                    (rcvd + 1)
                    { rem := (recoverLoop env ft fuel seed 0
                        { st with checks := st.checks + 1 }).st.rem.drop blockSize,
                      reads := (recoverLoop env ft fuel seed 0
                        { st with checks := st.checks + 1 }).st.reads + 1,
                      checks := (recoverLoop env ft fuel seed 0
                        { st with checks := st.checks + 1 }).st.checks,
                      processed := (recoverLoop env ft fuel seed 0
                        { st with checks := st.checks + 1 }).st.processed + 1,
                      prev := (periodicEmit env ((recoverLoop env ft fuel seed 0
                          { st with checks := st.checks + 1 }).st.processed + 1)
                        (recoverLoop env ft fuel seed 0
                          { st with checks := st.checks + 1 }).st.prev).1 })
      · have hrun2 : isRunning env st.checks = false := by
          cases h : isRunning env st.checks
          · rfl
          · exact absurd h hrun
        simp only [scanLoop, hbe, hrun2, Bool.false_eq_true, if_false, ite_false]
        exact EmitInv_refl st.prev

theorem getLastD_le_of_all {l : List Nat} (h : ∀ x ∈ l, x ≤ 95) (a : Nat)
    (ha : a ≤ 95) : l.getLastD a ≤ 95 := by
  induction l generalizing a with
  | nil => exact ha
  | cons b t ih =>
    rw [List.getLastD_cons]
    exact ih (fun x hx => h x (List.mem_cons_of_mem b hx)) b (h b (List.mem_cons_self b t))

/-- Claim C5: within one scan the sequence of emitted progress percentages
is strictly increasing (hence non-decreasing, and a value is emitted only
when it strictly exceeds the previous one); every value except possibly
the final post-loop event is at most 95, and nothing ever exceeds 98
(the post-loop event, main.py line 235). -/
theorem raw_recovery_progress_monotone (env : Env) :
    List.Chain' (fun x y => x < y) (raw_recovery env).pout ∧
    (∀ x ∈ (raw_recovery env).pout.dropLast, x ≤ 95) ∧
    (∀ x ∈ (raw_recovery env).pout, x ≤ 98) := by
  by_cases hrf : env.readFailAt = some 0
  · simp [raw_recovery, rawRecoverySeed, readBlock, hrf]
  · have hmain := scanLoop_inv env 1000 (env.data.length + 2)
      (env.data.take blockSize) 0 ⟨env.data.drop blockSize, 1, 0, 0, 0⟩
    obtain ⟨hchain, hlast, hbound⟩ := hmain
    by_cases hfail : (scanLoop env 1000 (env.data.length + 2)
        (env.data.take blockSize) 0 ⟨env.data.drop blockSize, 1, 0, 0, 0⟩).failed = true
    · simp only [raw_recovery, rawRecoverySeed, readBlock, hrf, hfail, if_true,
        ite_true, if_false, ite_false]
      refine ⟨chainLt_chain' hchain, ?_, ?_⟩
      · intro x hx
        exact hbound x (List.dropLast_subset _ hx)
      · intro x hx
        exact Nat.le_trans (hbound x hx) (by norm_num)
    · have hfail2 : (scanLoop env 1000 (env.data.length + 2)
          (env.data.take blockSize) 0 ⟨env.data.drop blockSize, 1, 0, 0, 0⟩).failed = false := by
        cases h : (scanLoop env 1000 (env.data.length + 2)
            (env.data.take blockSize) 0 ⟨env.data.drop blockSize, 1, 0, 0, 0⟩).failed
        · rfl
        · exact absurd h hfail
      simp only [raw_recovery, rawRecoverySeed, readBlock, hrf, hfail2, if_true,
        ite_true, if_false, ite_false, Bool.false_eq_true]
      have hlast95 : (scanLoop env 1000 (env.data.length + 2)
          (env.data.take blockSize) 0 ⟨env.data.drop blockSize, 1, 0, 0, 0⟩).pout.getLastD 0
            ≤ 95 :=
        getLastD_le_of_all hbound 0 (by norm_num)
      have hchain98 : List.Chain (fun x y => x < y)
          ((scanLoop env 1000 (env.data.length + 2)
            (env.data.take blockSize) 0 ⟨env.data.drop blockSize, 1, 0, 0, 0⟩).pout.getLastD 0)
          [98] :=
        List.chain_cons.mpr ⟨Nat.lt_of_le_of_lt hlast95 (by norm_num), List.Chain.nil⟩
      refine ⟨chainLt_chain' (chainLt_append hchain hchain98), ?_, ?_⟩
      · intro x hx
        rw [List.dropLast_concat] at hx
        exact hbound x hx
      · intro x hx
        rcases List.mem_append.mp hx with h | h
        · exact Nat.le_trans (hbound x h) (by norm_num)
        · simp only [List.mem_singleton] at h
          omega

/-- Witness for the C5 theorem at the `envTailSig` input, whose emission
sequence is `[45, 98]`. -/
theorem raw_recovery_progress_monotone_witness :
    List.Chain' (fun x y => x < y) (raw_recovery envTailSig).pout ∧
    45 ≤ 95 ∧ 98 ≤ 98 :=
  ⟨(raw_recovery_progress_monotone envTailSig).1,
    (raw_recovery_progress_monotone envTailSig).2.1 45 (by decide),
    (raw_recovery_progress_monotone envTailSig).2.2 98 (by decide)⟩

/-- Every record the outer loop produces carries status 'Recovered'
(main.py line 220), whether the file ended at its end marker, at medium
exhaustion, or at cancellation. -/
theorem scanLoop_recs_status (env : Env) (seed : Nat) :
    ∀ (fuel : Nat) (byte : List Nat) (rcvd : Nat) (st : ScanSt),
      ∀ r ∈ (scanLoop env seed fuel byte rcvd st).recs, r.status = "Recovered" := by
  intro fuel
  induction fuel with
  | zero => intro byte rcvd st r hr; simp [scanLoop] at hr
  | succ fuel ih =>
    intro byte rcvd st r hr
    by_cases hbe : byte = []
    · simp [scanLoop, hbe] at hr
    · by_cases hrun : isRunning env st.checks = true
      · cases hsig : scanStart byte with
        | none =>
          by_cases hrf : env.readFailAt = some st.reads
          · simp [scanLoop, hbe, hrun, hsig, readBlock, hrf] at hr
          · simp only [scanLoop, hbe, hrun, hsig, readBlock, hrf, if_true, ite_true,
              if_false, ite_false] at hr
            exact ih _ _ _ r hr
        | some ftpos =>
          obtain ⟨ft, pos⟩ := ftpos
          by_cases hwf : env.writeFailFile = some rcvd
          · simp [scanLoop, hbe, hrun, hsig, hwf] at hr
          · by_cases hfail : (recoverLoop env ft fuel seed 0
                { st with checks := st.checks + 1 }).failed = true
            · simp [scanLoop, hbe, hrun, hsig, hwf, hfail] at hr
            · have hfail2 : (recoverLoop env ft fuel seed 0
                  { st with checks := st.checks + 1 }).failed = false := by
                cases h : (recoverLoop env ft fuel seed 0
                    { st with checks := st.checks + 1 }).failed
                · rfl
                · exact absurd h hfail
              by_cases hrf2 : env.readFailAt = some (recoverLoop env ft fuel seed 0
                  { st with checks := st.checks + 1 }).st.reads
              · simp only [scanLoop, hbe, hrun, hsig, hwf, hfail2, readBlock, hrf2,
                  if_true, ite_true, if_false, ite_false, Bool.false_eq_true,
                  List.mem_singleton] at hr
                subst hr; rfl
              · simp only [scanLoop, hbe, hrun, hsig, hwf, hfail2, readBlock, hrf2,
                  if_true, ite_true, if_false, ite_false, Bool.false_eq_true,
                  List.mem_cons] at hr
                rcases hr with hr | hr
                · subst hr; rfl
                · exact ih _ _ _ r hr
      · have hrun2 : isRunning env st.checks = false := by
          cases h : isRunning env st.checks
          · rfl
          · exact absurd h hrun
        simp [scanLoop, hbe, hrun2] at hr

/-- Every status the verification loop assigns is one of the four
verifier statuses. -/
theorem verifyLoop_status (env : VerEnv) :
    ∀ (l : List VerRec) (fs : List (FPath × List Nat)) (c : Nat),
      ∀ r ∈ (verifyLoop env l fs c).1,
        r.status = "Missing" ∨ r.status = "OK" ∨ r.status = "Corrupted" ∨
          r.status = "Corrupted (not moved)" := by
  intro l
  induction l with
  | nil => intro fs c r hr; simp [verifyLoop] at hr
  | cons a rest ih =>
    intro fs c r hr
    simp only [verifyLoop, List.mem_cons] at hr
    rcases hr with hr | hr
    · subst hr
      unfold verifyStep
      cases hlook : lookupF fs a.path with
      | none => simp
      | some content =>
        by_cases hv : env.valid content a.ftype = true
        · simp [hv]
        · have hv2 : env.valid content a.ftype = false := by
            cases h : env.valid content a.ftype
            · rfl
            · exact absurd h hv
          by_cases hw : env.quarantineWritable = true
          · simp [hv2, hw]
          · have hw2 : env.quarantineWritable = false := by
              cases h : env.quarantineWritable
              · rfl
              · exact absurd h hw
            simp [hv2, hw2]
    · exact ih _ _ r hr

/-- Claim C10: every record returned by raw carving has status exactly
'Recovered' (truncation by exhaustion or cancellation included), and the
Integrity Verifier afterwards assigns only the statuses Missing, OK,
Corrupted and 'Corrupted (not moved)'. -/
theorem carve_status_recovered :
    (∀ env : Env, ∀ r ∈ (raw_recovery env).records, r.status = "Recovered") ∧
    (∀ (venv : VerEnv) (l : List VerRec), venv.quarantineCreatable = true →
      ∀ r ∈ (verify_files venv l).1,
        r.status = "Missing" ∨ r.status = "OK" ∨ r.status = "Corrupted" ∨
          r.status = "Corrupted (not moved)") := by
  constructor
  · intro env r hr
    revert hr
    simp only [raw_recovery, rawRecoverySeed]
    split
    · intro hr; simp at hr
    · split
      · intro hr; simp at hr
      · intro hr; exact scanLoop_recs_status env 1000 _ _ _ _ r hr
  · intro venv l hc r hr
    simp only [verify_files, hc, if_true, ite_true] at hr
    exact verifyLoop_status venv l venv.files 0 r hr

/-- Witness for the C10 theorem: the record carved from `envReadOk`, and
the Corrupted record the verifier produces from `vrecB`. -/
theorem carve_status_recovered_witness :
    (CarveRec.mk "recovered_0.jpg" 514 "jpg" "Recovered").status = "Recovered" ∧
    ((VerRec.mk (FPath.quar 1 (FPath.base "x")) 1 "jpg" "Corrupted" (some 1)).status
        = "Missing" ∨
      (VerRec.mk (FPath.quar 1 (FPath.base "x")) 1 "jpg" "Corrupted" (some 1)).status
        = "OK" ∨
      (VerRec.mk (FPath.quar 1 (FPath.base "x")) 1 "jpg" "Corrupted" (some 1)).status
        = "Corrupted" ∨
      (VerRec.mk (FPath.quar 1 (FPath.base "x")) 1 "jpg" "Corrupted" (some 1)).status
        = "Corrupted (not moved)") :=
  ⟨carve_status_recovered.1 envReadOk (CarveRec.mk "recovered_0.jpg" 514 "jpg" "Recovered")
      (by decide),
    carve_status_recovered.2 venvC [vrecB] (by decide)
      (VerRec.mk (FPath.quar 1 (FPath.base "x")) 1 "jpg" "Corrupted" (some 1))
      (by decide)⟩

/-- When the quarantine directory is not writable, a verification step
never changes the file system. -/
theorem verifyStep_files_notmoved (env : VerEnv)
    (hw : env.quarantineWritable = false)
    (fs : List (FPath × List Nat)) (c : Nat) (a : VerRec) :
    (verifyStep env fs c a).2.1 = fs := by
  unfold verifyStep
  cases hlook : lookupF fs a.path with
  | none => rfl
  | some content =>
    by_cases hv : env.valid content a.ftype = true
    · simp [hv]
    · have hv2 : env.valid content a.ftype = false := by
        cases h : env.valid content a.ftype
        · rfl
        · exact absurd h hv
      simp [hv2, hw]

theorem verifyLoop_length (env : VerEnv) :
    ∀ (l : List VerRec) (fs : List (FPath × List Nat)) (c : Nat),
      (verifyLoop env l fs c).1.length = l.length := by
  intro l
  induction l with
  | nil => intro fs c; rfl
  | cons a rest ih =>
    intro fs c
    simp only [verifyLoop, List.length_cons, ih]

/-- Core of claim C8 on the loop: with an unwritable quarantine directory,
the record at position `i`, when its file exists and is judged invalid,
comes out with status 'Corrupted (not moved)' and an unchanged path. -/
theorem verifyLoop_notmoved (env : VerEnv) (hw : env.quarantineWritable = false) :
    ∀ (l : List VerRec) (fs : List (FPath × List Nat)) (c : Nat) (i : Nat)
      (content : List Nat),
      i < l.length →
      lookupF fs ((l.getD i dummyRec).path) = some content →
      env.valid content ((l.getD i dummyRec).ftype) = false →
      ((verifyLoop env l fs c).1.getD i dummyRec).status = "Corrupted (not moved)" ∧
      ((verifyLoop env l fs c).1.getD i dummyRec).path = (l.getD i dummyRec).path := by
  intro l
  induction l with
  | nil => intro fs c i content hi; exact absurd hi (by simp)
  | cons a rest ih =>
    intro fs c i content hi hlook hinv
    cases i with
    | zero =>
      simp only [List.getD_cons_zero] at hlook hinv ⊢
      simp only [verifyLoop, List.getD_cons_zero]
      unfold verifyStep
      rw [hlook]
      simp [hinv, hw]
    | succ j =>
      simp only [List.getD_cons_succ] at hlook hinv ⊢
      simp only [verifyLoop, List.getD_cons_succ]
      rw [verifyStep_files_notmoved env hw fs c a]
      exact ih fs (verifyStep env fs c a).2.2 j content
        (by simpa using Nat.lt_of_succ_lt_succ hi) hlook hinv

/-- Claim C8: for a record judged invalid whose quarantine move fails, the
status becomes exactly 'Corrupted (not moved)', the path is left
unchanged, and the record still appears in the output sequence (the
output has the same length, with the record at the same position). -/
theorem verify_files_quarantine_move_failure (env : VerEnv) (l : List VerRec)
    (i : Nat) (content : List Nat)
    (hc : env.quarantineCreatable = true)
    (hw : env.quarantineWritable = false)
    (hi : i < l.length)
    (hlook : lookupF env.files ((l.getD i dummyRec).path) = some content)
    (hinv : env.valid content ((l.getD i dummyRec).ftype) = false) :
    ((verify_files env l).1.getD i dummyRec).status = "Corrupted (not moved)" ∧
    ((verify_files env l).1.getD i dummyRec).path = (l.getD i dummyRec).path ∧
    (verify_files env l).1.length = l.length := by
  simp only [verify_files, hc, if_true, ite_true]
  obtain ⟨h1, h2⟩ := verifyLoop_notmoved env hw l env.files 0 i content hi hlook hinv
  exact ⟨h1, h2, verifyLoop_length env l env.files 0⟩

/-- Witness for the C8 theorem: `vrecB` against the unwritable-quarantine
environment `venvN`. -/
theorem verify_files_quarantine_move_failure_witness :
    ((verify_files venvN [vrecB]).1.getD 0 dummyRec).status = "Corrupted (not moved)" ∧
    ((verify_files venvN [vrecB]).1.getD 0 dummyRec).path
        = ([vrecB].getD 0 dummyRec).path ∧
    (verify_files venvN [vrecB]).1.length = [vrecB].length :=
  verify_files_quarantine_move_failure venvN [vrecB] 0 [7]
    (by decide) (by decide) (by decide) (by decide) (by decide)

theorem quar_ne (p : FPath) : ∀ m : Nat, FPath.quar m p ≠ p := by
  induction p with
  | base s => intro m h; exact FPath.noConfusion h
  | quar n q ih =>
    intro m h
    injection h with h1 h2
    exact ih n h2

theorem lookupF_removeF (fs : List (FPath × List Nat)) (p q : FPath)
    (hne : ¬ q = p) : lookupF (removeF fs p) q = lookupF fs q := by
  induction fs with
  | nil => rfl
  | cons e t ih =>
    by_cases he : e.1 = p
    · have hq : ¬ p = q := fun h => hne h.symm
      simp only [removeF, he, if_true, ite_true, lookupF, hq, if_false, ite_false]
      exact ih
    · simp only [removeF, he, if_false, ite_false, lookupF]
      by_cases hq : e.1 = q
      · simp [hq]
      · simp [hq, ih]

theorem lookupF_moveF_other (fs : List (FPath × List Nat)) (src dst p : FPath)
    (h1 : ¬ p = src) (h2 : ¬ p = dst) :
    lookupF (moveF fs src dst) p = lookupF fs p := by
  unfold moveF
  cases hl : lookupF fs src with
  | none => rfl
  | some c =>
    have hdst : ¬ dst = p := fun h => h2 h.symm
    simp only [lookupF, hdst, if_false, ite_false]
    exact lookupF_removeF fs src p h1

theorem lookupF_moveF_dst (fs : List (FPath × List Nat)) (src dst : FPath)
    (content : List Nat) (h : lookupF fs src = some content) :
    lookupF (moveF fs src dst) dst = some content := by
  unfold moveF
  rw [h]
  simp [lookupF]

theorem verifyStep_fst (env : VerEnv) (fs : List (FPath × List Nat)) (c : Nat)
    (r : VerRec) :
    (verifyStep env fs c r).1 = (stepOut env (lookupF fs r.path) c r).1 := by
  unfold verifyStep stepOut
  cases lookupF fs r.path with
  | none => rfl
  | some content =>
    by_cases hv : env.valid content r.ftype = true
    · simp [hv]
    · have hv2 : env.valid content r.ftype = false := by
        cases h : env.valid content r.ftype
        · rfl
        · exact absurd h hv
      by_cases hw : env.quarantineWritable = true
      · simp [hv2, hw]
      · have hw2 : env.quarantineWritable = false := by
          cases h : env.quarantineWritable
          · rfl
          · exact absurd h hw
        simp [hv2, hw2]

theorem verifyStep_cnt (env : VerEnv) (fs : List (FPath × List Nat)) (c : Nat)
    (r : VerRec) :
    (verifyStep env fs c r).2.2 = (stepOut env (lookupF fs r.path) c r).2 := by
  unfold verifyStep stepOut
  cases lookupF fs r.path with
  | none => rfl
  | some content =>
    by_cases hv : env.valid content r.ftype = true
    · simp [hv]
    · have hv2 : env.valid content r.ftype = false := by
        cases h : env.valid content r.ftype
        · rfl
        · exact absurd h hv
      by_cases hw : env.quarantineWritable = true
      · simp [hv2, hw]
      · have hw2 : env.quarantineWritable = false := by
          cases h : env.quarantineWritable
          · rfl
          · exact absurd h hw
        simp [hv2, hw2]

/-- One verification step can change the file system only at the record's
own path and at its quarantine destination. -/
theorem verifyStep_files_frame (env : VerEnv) (fs : List (FPath × List Nat))
    (c : Nat) (r : VerRec) (p : FPath)
    (h1 : ¬ p = r.path) (h2 : ∀ m : Nat, ¬ p = FPath.quar m r.path) :
    lookupF (verifyStep env fs c r).2.1 p = lookupF fs p := by
  unfold verifyStep
  cases hl : lookupF fs r.path with
  | none => rfl
  | some content =>
    by_cases hv : env.valid content r.ftype = true
    · simp [hv]
    · have hv2 : env.valid content r.ftype = false := by
        cases h : env.valid content r.ftype
        · rfl
        · exact absurd h hv
      by_cases hw : env.quarantineWritable = true
      · simp only [hv2, hw, Bool.false_eq_true, if_false, ite_false, if_true, ite_true]
        exact lookupF_moveF_other fs r.path (FPath.quar (c + 1) r.path) p h1 (h2 (c + 1))
      · have hw2 : env.quarantineWritable = false := by
          cases h : env.quarantineWritable
          · rfl
          · exact absurd h hw
        simp [hv2, hw2]

theorem stepOut_path (env : VerEnv) (look : Option (List Nat)) (c : Nat)
    (r : VerRec) :
    (stepOut env look c r).1.path = r.path ∨
    (stepOut env look c r).1.path = FPath.quar (c + 1) r.path := by
  unfold stepOut
  cases look with
  | none => exact Or.inl rfl
  | some content =>
    by_cases hv : env.valid content r.ftype = true
    · simp [hv]
    · have hv2 : env.valid content r.ftype = false := by
        cases h : env.valid content r.ftype
        · rfl
        · exact absurd h hv
      by_cases hw : env.quarantineWritable = true
      · simp [hv2, hw]
      · have hw2 : env.quarantineWritable = false := by
          cases h : env.quarantineWritable
          · rfl
          · exact absurd h hw
        simp [hv2, hw2]

/-- The verification loop can change the file system only at the processed
records' paths and their quarantine destinations. -/
theorem verifyLoop_files_frame (env : VerEnv) :
    ∀ (l : List VerRec) (fs : List (FPath × List Nat)) (c : Nat) (p : FPath),
      (∀ r ∈ l, ¬ p = r.path ∧ ∀ m : Nat, ¬ p = FPath.quar m r.path) →
      lookupF (verifyLoop env l fs c).2.1 p = lookupF fs p := by
  intro l
  induction l with
  | nil => intro fs c p _; rfl
  | cons a rest ih =>
    intro fs c p hp
    simp only [verifyLoop]
    rw [ih _ _ p (fun r hr => hp r (List.mem_cons_of_mem a hr))]
    exact verifyStep_files_frame env fs c a p
      (hp a (List.mem_cons_self a rest)).1 (hp a (List.mem_cons_self a rest)).2

/-- The file system produced by a verification step, characterised by the
looked-up content. -/
theorem verifyStep_files (env : VerEnv) (fs : List (FPath × List Nat)) (c : Nat)
    (r : VerRec) :
    (verifyStep env fs c r).2.1 =
      match lookupF fs r.path with
      | none => fs
      | some content =>
        if env.valid content r.ftype then fs
        else if env.quarantineWritable then
          moveF fs r.path (FPath.quar (c + 1) r.path)
        else fs := by
  unfold verifyStep
  cases lookupF fs r.path with
  | none => rfl
  | some content =>
    by_cases hv : env.valid content r.ftype = true
    · simp [hv]
    · have hv2 : env.valid content r.ftype = false := by
        cases h : env.valid content r.ftype
        · rfl
        · exact absurd h hv
      by_cases hw : env.quarantineWritable = true
      · simp [hv2, hw]
      · have hw2 : env.quarantineWritable = false := by
          cases h : env.quarantineWritable
          · rfl
          · exact absurd h hw
        simp [hv2, hw2]

/-- With pairwise-distinct, non-quarantine-colliding record paths, the
verification loop computes, record by record, exactly the reference
outcome determined by the lookups in the initial file system `fs` (the
loop may run on any file system `fs2` that agrees with `fs` on the record
paths). -/
theorem verifyLoop_eq_spec (env : VerEnv) :
    ∀ (l : List VerRec) (fs fs2 : List (FPath × List Nat)) (c : Nat),
      (∀ r ∈ l, lookupF fs2 r.path = lookupF fs r.path) →
      DistinctPaths l → NoQuarOf l →
      (verifyLoop env l fs2 c).1 = loopSpec env fs l c := by
  intro l
  induction l with
  | nil => intro fs fs2 c _ _ _; rfl
  | cons a rest ih =>
    intro fs fs2 c hagree hD hQ
    have hDa := (List.pairwise_cons.mp hD).1
    have hDrest : DistinctPaths rest := (List.pairwise_cons.mp hD).2
    have hQrest : NoQuarOf rest := fun r hr r2 hr2 m =>
      hQ r (List.mem_cons_of_mem a hr) r2 (List.mem_cons_of_mem a hr2) m
    have haa := hagree a (List.mem_cons_self a rest)
    have hagree2 : ∀ r ∈ rest,
        lookupF (verifyStep env fs2 c a).2.1 r.path = lookupF fs r.path := by
      intro r hr
      rw [verifyStep_files_frame env fs2 c a r.path
        (fun h => hDa r hr h.symm)
        (fun m h => hQ a (List.mem_cons_self a rest) r (List.mem_cons_of_mem a hr) m h)]
      exact hagree r (List.mem_cons_of_mem a hr)
    have hcnt : (verifyStep env fs2 c a).2.2
        = (stepOut env (lookupF fs a.path) c a).2 := by
      rw [verifyStep_cnt, haa]
    simp only [verifyLoop, loopSpec]
    rw [verifyStep_fst, haa]
    congr 1
    rw [← hcnt]
    exact ih fs (verifyStep env fs2 c a).2.1 (verifyStep env fs2 c a).2.2
      hagree2 hDrest hQrest

/-- Looking up each record's output path in the loop's FINAL file system
returns exactly what the record's own step saw: files moved to quarantine
are found there, untouched files are found at their original paths, and
missing files stay missing. -/
theorem verifyLoop_lookStable (env : VerEnv) :
    ∀ (l : List VerRec) (fs fs2 : List (FPath × List Nat)) (c : Nat),
      (∀ r ∈ l, lookupF fs2 r.path = lookupF fs r.path) →
      DistinctPaths l → NoQuarOf l →
      LookStable env (verifyLoop env l fs2 c).2.1 fs l c := by
  intro l
  induction l with
  | nil => intro fs fs2 c _ _ _; trivial
  | cons a rest ih =>
    intro fs fs2 c hagree hD hQ
    have hDa := (List.pairwise_cons.mp hD).1
    have hDrest : DistinctPaths rest := (List.pairwise_cons.mp hD).2
    have hQrest : NoQuarOf rest := fun r hr r2 hr2 m =>
      hQ r (List.mem_cons_of_mem a hr) r2 (List.mem_cons_of_mem a hr2) m
    have haa := hagree a (List.mem_cons_self a rest)
    have hagree2 : ∀ r ∈ rest,
        lookupF (verifyStep env fs2 c a).2.1 r.path = lookupF fs r.path := by
      intro r hr
      rw [verifyStep_files_frame env fs2 c a r.path
        (fun h => hDa r hr h.symm)
        (fun m h => hQ a (List.mem_cons_self a rest) r (List.mem_cons_of_mem a hr) m h)]
      exact hagree r (List.mem_cons_of_mem a hr)
    have hcnt : (verifyStep env fs2 c a).2.2
        = (stepOut env (lookupF fs a.path) c a).2 := by
      rw [verifyStep_cnt, haa]
    have hframe : ∀ r ∈ rest,
        ¬ (stepOut env (lookupF fs a.path) c a).1.path = r.path ∧
        ∀ m : Nat, ¬ (stepOut env (lookupF fs a.path) c a).1.path
            = FPath.quar m r.path := by
      intro r hr
      rcases stepOut_path env (lookupF fs a.path) c a with hp | hp
      · rw [hp]
        exact ⟨hDa r hr,
          fun m h => hQ r (List.mem_cons_of_mem a hr) a (List.mem_cons_self a rest) m h⟩
      · rw [hp]
        constructor
        · intro h
          exact hQ a (List.mem_cons_self a rest) r (List.mem_cons_of_mem a hr) (c + 1)
            h.symm
        · intro m h
          injection h with h1 h2
          exact hDa r hr h2
    simp only [LookStable, verifyLoop]
    constructor
    · rw [verifyLoop_files_frame env rest (verifyStep env fs2 c a).2.1
        (verifyStep env fs2 c a).2.2 _ hframe]
      rw [verifyStep_files, haa]
      cases hlook : lookupF fs a.path with
      | none =>
        have hp : (stepOut env none c a).1.path = a.path := rfl
        simp only [hlook, hp]
        exact haa.trans hlook
      | some content =>
        by_cases hv : env.valid content a.ftype = true
        · have hp : (stepOut env (some content) c a).1.path = a.path := by
            simp [stepOut, hv]
          simp only [hlook, hp, hv, if_true, ite_true]
          exact haa.trans hlook
        · have hv2 : env.valid content a.ftype = false := by
            cases h : env.valid content a.ftype
            · rfl
            · exact absurd h hv
          by_cases hw : env.quarantineWritable = true
          · have hp : (stepOut env (some content) c a).1.path
                = FPath.quar (c + 1) a.path := by
              simp [stepOut, hv2, hw]
            simp only [hlook, hp, hv2, hw, Bool.false_eq_true, if_false, ite_false,
              if_true, ite_true]
            exact lookupF_moveF_dst fs2 a.path (FPath.quar (c + 1) a.path) content
              (haa.trans hlook)
          · have hw2 : env.quarantineWritable = false := by
              cases h : env.quarantineWritable
              · rfl
              · exact absurd h hw
            have hp : (stepOut env (some content) c a).1.path = a.path := by
              simp [stepOut, hv2, hw2]
            simp only [hlook, hp, hv2, hw2, Bool.false_eq_true, if_false, ite_false]
            exact haa.trans hlook
    · rw [← hcnt]
      exact ih fs (verifyStep env fs2 c a).2.1 (verifyStep env fs2 c a).2.2
        hagree2 hDrest hQrest

/-- Every record of the reference pass traces back to an input record; its
path is the input path exactly when the step does not move it, and a
quarantine name over the input path exactly when it does. -/
theorem loopSpec_path_char (env : VerEnv) :
    ∀ (l : List VerRec) (fs : List (FPath × List Nat)) (c : Nat),
      ∀ r2 ∈ loopSpec env fs l c,
        ∃ r ∈ l, (r2.path = r.path ∧ ¬ Moved env fs r) ∨
          ((∃ m : Nat, r2.path = FPath.quar m r.path) ∧ Moved env fs r) := by
  intro l
  induction l with
  | nil => intro fs c r2 h; simp [loopSpec] at h
  | cons a rest ih =>
    intro fs c r2 h
    simp only [loopSpec, List.mem_cons] at h
    rcases h with h | h
    · subst h
      refine ⟨a, List.mem_cons_self a rest, ?_⟩
      cases hlook : lookupF fs a.path with
      | none =>
        left
        constructor
        · rfl
        · rintro ⟨hw, ct, hct, hvf⟩
          rw [hlook] at hct; cases hct
      | some content =>
        by_cases hv : env.valid content a.ftype = true
        · left
          constructor
          · simp [stepOut, hv]
          · rintro ⟨hw, ct, hct, hvf⟩
            rw [hlook] at hct
            injection hct with hcteq
            subst hcteq
            rw [hv] at hvf; cases hvf
        · have hv2 : env.valid content a.ftype = false := by
            cases hx : env.valid content a.ftype
            · rfl
            · exact absurd hx hv
          by_cases hw : env.quarantineWritable = true
          · right
            exact ⟨⟨c + 1, by simp [stepOut, hv2, hw]⟩,
              hw, content, hlook, hv2⟩
          · have hw2 : env.quarantineWritable = false := by
              cases hx : env.quarantineWritable
              · rfl
              · exact absurd hx hw
            left
            constructor
            · simp [stepOut, hv2, hw2]
            · rintro ⟨hwt, _⟩
              rw [hw2] at hwt; cases hwt
    · obtain ⟨r, hr, hcase⟩ := ih fs _ r2 h
      exact ⟨r, List.mem_cons_of_mem a hr, hcase⟩

theorem mem_eq_of_path_eq :
    ∀ {l : List VerRec}, DistinctPaths l →
      ∀ {a b : VerRec}, a ∈ l → b ∈ l → a.path = b.path → a = b := by
  intro l
  induction l with
  | nil => intro _ a b ha; simp at ha
  | cons x t ih =>
    intro hD a b ha hb hpath
    have hx := (List.pairwise_cons.mp hD).1
    have ht := (List.pairwise_cons.mp hD).2
    rcases List.mem_cons.mp ha with ha1 | ha1 <;> rcases List.mem_cons.mp hb with hb1 | hb1
    · rw [ha1, hb1]
    · subst ha1; exact absurd hpath (hx b hb1)
    · subst hb1; exact absurd hpath.symm (hx a ha1)
    · exact ih ht ha1 hb1 hpath

/-- The output record paths of the reference pass stay pairwise distinct. -/
theorem loopSpec_distinct (env : VerEnv) :
    ∀ (l : List VerRec) (fs : List (FPath × List Nat)) (c : Nat),
      DistinctPaths l → AllBase l → DistinctPaths (loopSpec env fs l c) := by
  intro l
  induction l with
  | nil => intro fs c _ _; exact List.Pairwise.nil
  | cons a rest ih =>
    intro fs c hD hB
    have hDa := (List.pairwise_cons.mp hD).1
    have hDrest : DistinctPaths rest := (List.pairwise_cons.mp hD).2
    have hBa := hB a (List.mem_cons_self a rest)
    have hBrest : AllBase rest := fun r hr => hB r (List.mem_cons_of_mem a hr)
    simp only [loopSpec]
    refine List.pairwise_cons.mpr ⟨?_, ih fs _ hDrest hBrest⟩
    intro r2 hr2
    obtain ⟨r, hr, hcase⟩ := loopSpec_path_char env rest fs _ r2 hr2
    obtain ⟨sa, hsa⟩ := hBa
    obtain ⟨sr, hsr⟩ := hBrest r hr
    rcases stepOut_path env (lookupF fs a.path) c a with hp | hp <;>
      rcases hcase with ⟨hq, _⟩ | ⟨⟨m, hq⟩, _⟩
    · rw [hp, hq]; exact hDa r hr
    · rw [hp, hq, hsa]; intro hcon; exact FPath.noConfusion hcon
    · rw [hp, hq, hsr]; intro hcon; exact FPath.noConfusion hcon
    · rw [hp, hq]
      intro hcon
      injection hcon with h1 h2
      exact hDa r hr h2

/-- No output record path of the reference pass is a quarantine name over
another output record path. -/
theorem loopSpec_noquar (env : VerEnv) :
    ∀ (l : List VerRec) (fs : List (FPath × List Nat)) (c : Nat),
      DistinctPaths l → AllBase l → NoQuarOf (loopSpec env fs l c) := by
  intro l fs c hD hB rA hrA rB hrB m
  obtain ⟨a, ha, hcaseA⟩ := loopSpec_path_char env l fs c rA hrA
  obtain ⟨b, hb, hcaseB⟩ := loopSpec_path_char env l fs c rB hrB
  obtain ⟨sa, hsa⟩ := hB a ha
  obtain ⟨sb, hsb⟩ := hB b hb
  rcases hcaseA with ⟨hqA, hmA⟩ | ⟨⟨k1, hqA⟩, hmA⟩ <;>
    rcases hcaseB with ⟨hqB, hmB⟩ | ⟨⟨k2, hqB⟩, hmB⟩
  · rw [hqB, hsb]; intro hcon; exact FPath.noConfusion hcon
  · rw [hqB, hqA]
    intro hcon
    injection hcon with h1 h2
    exact hmA (mem_eq_of_path_eq hD hb ha h2 ▸ hmB)
  · rw [hqB, hsb]; intro hcon; exact FPath.noConfusion hcon
  · rw [hqB, hqA, hsb]
    intro hcon
    injection hcon with h1 h2
    exact FPath.noConfusion h2

/-- Re-running the reference pass on its own output, with lookups that are
stable across the first pass, reproduces every status and hash. -/
theorem loopSpec_statusHash (env : VerEnv)
    (F1 fs : List (FPath × List Nat)) :
    ∀ (l : List VerRec) (c c2 : Nat),
      LookStable env F1 fs l c →
      (loopSpec env F1 (loopSpec env fs l c) c2).map recStatusHash
        = (loopSpec env fs l c).map recStatusHash := by
  intro l
  induction l with
  | nil => intro c c2 _; rfl
  | cons a rest ih =>
    intro c c2 hstab
    simp only [LookStable] at hstab
    obtain ⟨hstabA, hstabRest⟩ := hstab
    simp only [loopSpec, List.map_cons]
    rw [hstabA]
    congr 1
    · cases hlook : lookupF fs a.path with
      | none =>
        simp [stepOut, recStatusHash]
      | some content =>
        by_cases hv : env.valid content a.ftype = true
        · simp [stepOut, recStatusHash, hv]
        · have hv2 : env.valid content a.ftype = false := by
            cases hx : env.valid content a.ftype
            · rfl
            · exact absurd hx hv
          by_cases hw : env.quarantineWritable = true
          · simp [stepOut, recStatusHash, hv2, hw]
          · have hw2 : env.quarantineWritable = false := by
              cases hx : env.quarantineWritable
              · rfl
              · exact absurd hx hw
            simp [stepOut, recStatusHash, hv2, hw2]
    · exact ih _ _ hstabRest

/-- The verification loop never reads the `files` field of its
environment (the file system is threaded explicitly), so replacing that
field changes nothing. -/
theorem verifyLoop_files_field_irrel (env : VerEnv)
    (F : List (FPath × List Nat)) :
    ∀ (l : List VerRec) (fs : List (FPath × List Nat)) (c : Nat),
      verifyLoop { env with files := F } l fs c = verifyLoop env l fs c := by
  intro l
  induction l with
  | nil => intro fs c; rfl
  | cons a rest ih =>
    intro fs c
    simp only [verifyLoop]
    rw [show verifyStep { env with files := F } fs c a = verifyStep env fs c a from rfl,
      ih]

/-- Claim C9, counterexample: a record set in which one record's path is
exactly the quarantine name the first pass generates for another record.
Pass one yields statuses [Missing, Corrupted]; running the verifier again
on that very output (files untouched in between, only relocated by the
verifier's own quarantine move) yields [Corrupted, Missing]: statuses and
hashes change. -/
theorem verify_files_idempotent_cex :
    ((verify_files venvC [vrecA, vrecB]).1.map recStatusHash)
        = [("Missing", none), ("Corrupted", some 1)] ∧
    ((verify_files ((verify_files venvC [vrecA, vrecB]).2)
        ((verify_files venvC [vrecA, vrecB]).1)).1.map recStatusHash)
        = [("Corrupted", some 1), ("Missing", some 1)] := by
  refine ⟨by decide, by decide⟩

/-- Claim C9, amended: for record sets whose paths are pairwise distinct
and are original (non-quarantine) paths - as the records produced by raw
carving always are - running the Integrity Verifier a second time on the
record set produced by the first pass, with file contents unchanged,
yields the same status and the same hash for every record. -/
theorem verify_files_idempotent (env : VerEnv) (l : List VerRec)
    (hD : DistinctPaths l) (hB : AllBase l) :
    ((verify_files ((verify_files env l).2) ((verify_files env l).1)).1.map recStatusHash)
      = ((verify_files env l).1.map recStatusHash) := by
  by_cases hc : env.quarantineCreatable = true
  · have hQ : NoQuarOf l := by
      intro r hr r2 hr2 m
      obtain ⟨s, hs⟩ := hB r2 hr2
      rw [hs]
      intro hcon
      exact FPath.noConfusion hcon
    have hagree : ∀ r ∈ l, lookupF env.files r.path = lookupF env.files r.path :=
      fun _ _ => rfl
    have hout1 : (verifyLoop env l env.files 0).1 = loopSpec env env.files l 0 :=
      verifyLoop_eq_spec env l env.files env.files 0 hagree hD hQ
    have hstable : LookStable env (verifyLoop env l env.files 0).2.1 env.files l 0 :=
      verifyLoop_lookStable env l env.files env.files 0 hagree hD hQ
    have hD1 : DistinctPaths (loopSpec env env.files l 0) :=
      loopSpec_distinct env l env.files 0 hD hB
    have hQ1 : NoQuarOf (loopSpec env env.files l 0) :=
      loopSpec_noquar env l env.files 0 hD hB
    have hpass1 : verify_files env l
        = ((verifyLoop env l env.files 0).1,
            { env with files := (verifyLoop env l env.files 0).2.1 }) := by
      simp [verify_files, hc]
    rw [hpass1]
    have hc2 : ({ env with files := (verifyLoop env l env.files 0).2.1 }
        : VerEnv).quarantineCreatable = true := hc
    have hpass2 : verify_files { env with files := (verifyLoop env l env.files 0).2.1 }
          (verifyLoop env l env.files 0).1
        = ((verifyLoop { env with files := (verifyLoop env l env.files 0).2.1 }
              (verifyLoop env l env.files 0).1 (verifyLoop env l env.files 0).2.1 0).1,
            { env with files :=
              (verifyLoop { env with files := (verifyLoop env l env.files 0).2.1 }
                (verifyLoop env l env.files 0).1 (verifyLoop env l env.files 0).2.1 0).2.1 }) := by
      simp [verify_files, hc]
    rw [hpass2]
    rw [verifyLoop_files_field_irrel env (verifyLoop env l env.files 0).2.1]
    have hagree1 : ∀ r ∈ (verifyLoop env l env.files 0).1,
        lookupF (verifyLoop env l env.files 0).2.1 r.path
          = lookupF (verifyLoop env l env.files 0).2.1 r.path := fun _ _ => rfl
    have hpass2spec : (verifyLoop env (verifyLoop env l env.files 0).1
          (verifyLoop env l env.files 0).2.1 0).1
        = loopSpec env (verifyLoop env l env.files 0).2.1
            (verifyLoop env l env.files 0).1 0 := by
      refine verifyLoop_eq_spec env (verifyLoop env l env.files 0).1
        (verifyLoop env l env.files 0).2.1 (verifyLoop env l env.files 0).2.1 0
        hagree1 ?_ ?_
      · rw [hout1]; exact hD1
      · rw [hout1]; exact hQ1
    rw [hpass2spec, hout1]
    exact loopSpec_statusHash env (verifyLoop env l env.files 0).2.1 env.files l 0 0
      hstable
  · have hc2 : env.quarantineCreatable = false := by
      cases hx : env.quarantineCreatable
      · rfl
      · exact absurd hx hc
    simp [verify_files, hc2]

/-- Witness for the amended C9 theorem: a well-formed single-record set. -/
theorem verify_files_idempotent_witness :
    DistinctPaths [vrecB] ∧ AllBase [vrecB] ∧
    ((verify_files ((verify_files venvC [vrecB]).2) ((verify_files venvC [vrecB]).1)).1.map
        recStatusHash)
      = ((verify_files venvC [vrecB]).1.map recStatusHash) := by
  have hD : DistinctPaths [vrecB] := by
    simp [DistinctPaths]
  have hB : AllBase [vrecB] := by
    intro r hr
    rw [List.mem_singleton] at hr
    subst hr
    exact ⟨"x", rfl⟩
  exact ⟨hD, hB, verify_files_idempotent venvC [vrecB] hD hB⟩

end Recovery
